import Mathlib

/-!
Verification of the YouTube channel download pipeline implemented in
`server/index.js` (functions `resolveChannelId`, `fetchChannelVideoIds`,
`findContinuationToken`, `getVideoDetails`, `enrichWithEngagementData`, and the
`/api/youtube/channel` request handler).  The JavaScript is shallowly embedded:
JSON documents become an inductive `Json` tree, network calls become explicit
environment fields of type `Except String _` (an `Except.error` models a thrown
exception), and the SSE stream becomes a list of events.
-/

/-- A parsed JSON document.  Objects keep their properties as an ordered
association list; the order is the JavaScript property-enumeration order that
`Object.values` iterates (for documents built by `JSON.parse` this is textual
order with integer-like keys first).  `num` carries an `Int`; none of the
verified code paths distinguishes fractional values. -/
inductive Json where
  | null
  | bool (b : Bool)
  | num (n : Int)
  | str (s : String)
  | arr (items : List Json)
  | obj (fields : List (String × Json))

/-- JavaScript truthiness of a JSON value (`if (x)`); `NaN` does not occur as a
document value. -/
def Json.truthy : Json → Bool
  | .null => false
  | .bool b => b
  | .num n => n != 0
  | .str s => s != ""
  | .arr _ => true
  | .obj _ => true

/-- Property lookup `obj[key]` on an object's field list.  Documents coming out
of `JSON.parse` have unique keys, so first-match lookup is exact. -/
def lookupField : List (String × Json) → String → Option Json
  | [], _ => none
  | (k, v) :: rest, key => if k = key then some v else lookupField rest key

/-- Models `obj.continuationCommand?.token` when truthy (first branch of
`findContinuationToken`): the `continuationCommand` property must be an object
whose `token` property is truthy. -/
def contCommandToken (fields : List (String × Json)) : Option Json :=
  match lookupField fields "continuationCommand" with
  | some (.obj inner) =>
    match lookupField inner "token" with
    | some t => if t.truthy then some t else none
    | none => none
  | _ => none

/-- Models `obj.token && obj.continuationEndpoint` (second branch of
`findContinuationToken`): both properties present and truthy; the `token`
value is returned. -/
def siblingToken (fields : List (String × Json)) : Option Json :=
  match lookupField fields "token", lookupField fields "continuationEndpoint" with
  | some t, some ce => if t.truthy && ce.truthy then some t else none
  | _, _ => none

mutual

/-- Models `findContinuationToken(obj)` from `server/index.js`: try the two match
rules at the current node, then recurse over `Object.values` in order,
flattening one level of arrays exactly as the source loop does. -/
def findContinuationToken : Json → Option Json
  | .obj fields =>
    match contCommandToken fields with
    | some t => some t
    | none =>
      match siblingToken fields with
      | some t => some t
      | none => findTokenFields fields
  | .arr items => findTokenVals items
  | _ => none

/-- The `for (const val of Object.values(obj))` loop of
`findContinuationToken`, receiver an object. -/
def findTokenFields : List (String × Json) → Option Json
  | [] => none
  | (_, v) :: rest =>
    match findTokenChild v with
    | some t => some t
    | none => findTokenFields rest

/-- The same `Object.values` loop when the receiver is an array (its values
are its elements). -/
def findTokenVals : List Json → Option Json
  | [] => none
  | v :: rest =>
    match findTokenChild v with
    | some t => some t
    | none => findTokenVals rest

/-- Dispatch on one value of the loop: `Array.isArray(val)` iterates the
array's items, a non-null object recurses (the body of
`findContinuationToken` on an object is inlined here so the recursion is
structural; `findTokenChild_obj` below proves the inlining exact), scalars
and `null` are skipped. -/
def findTokenChild : Json → Option Json
  | .arr items => findTokenItems items
  | .obj fields =>
    match contCommandToken fields with
    | some t => some t
    | none =>
      match siblingToken fields with
      | some t => some t
      | none => findTokenFields fields
  | _ => none

/-- The inner `for (const item of val)` loop over an array value's items. -/
def findTokenItems : List Json → Option Json
  | [] => none
  | i :: rest =>
    match findContinuationToken i with
    | some t => some t
    | none => findTokenItems rest

end

theorem findTokenChild_obj (fields : List (String × Json)) :
    findTokenChild (.obj fields) = findContinuationToken (.obj fields) := rfl

mutual

/-- Every token matched in the document, in depth-first left-to-right order —
the traversal-order characterisation used by the Continuation Locator claim;
at a node the `continuationCommand` rule precedes the sibling-`token` rule. -/
def contMatches : Json → List Json
  | .obj fields =>
    (contCommandToken fields).toList ++ (siblingToken fields).toList
      ++ contMatchesFields fields
  | .arr items => contMatchesVals items
  | _ => []

/-- DFS match list of an object's property values, in order. -/
def contMatchesFields : List (String × Json) → List Json
  | [] => []
  | (_, v) :: rest => contMatchesChild v ++ contMatchesFields rest

/-- DFS match list of an array receiver's elements, in order. -/
def contMatchesVals : List Json → List Json
  | [] => []
  | v :: rest => contMatchesChild v ++ contMatchesVals rest

/-- DFS match list of one child value (arrays are flattened one level,
mirroring the loop shape of the source). -/
def contMatchesChild : Json → List Json
  | .arr items => contMatchesItems items
  | .obj fields =>
    (contCommandToken fields).toList ++ (siblingToken fields).toList
      ++ contMatchesFields fields
  | _ => []

/-- DFS match list of the items of an array value. -/
def contMatchesItems : List Json → List Json
  | [] => []
  | i :: rest => contMatches i ++ contMatchesItems rest

end

theorem contMatchesChild_obj (fields : List (String × Json)) :
    contMatchesChild (.obj fields) = contMatches (.obj fields) := rfl

example :
    findContinuationToken
      (.obj [("a", .obj [("continuationCommand", .obj [("token", .str "T")])])])
      = some (.str "T") := rfl

example : findContinuationToken (.obj [("a", .str "x")]) = none := rfl

/-- C6: the Continuation Locator returns the first matching token of a
depth-first, left-to-right traversal (`contMatches` lists every match in that
order), and returns `none` when no node matches (the head of the empty list).
A match is an object whose `continuationCommand` field carries a truthy
`token` sub-field, or an object carrying a truthy `token` field together with
a truthy `continuationEndpoint` sibling. -/
theorem contLocator_dfs_head (j : Json) :
    findContinuationToken j = (contMatches j).head? := by
  refine @findContinuationToken.induct
    (fun a => findContinuationToken a = (contMatches a).head?)
    (fun l => findTokenVals l = (contMatchesVals l).head?)
    (fun a => findTokenChild a = (contMatchesChild a).head?)
    (fun l => findTokenFields l = (contMatchesFields l).head?)
    (fun l => findTokenItems l = (contMatchesItems l).head?)
    ?_ ?_ ?_ ?_ ?_ ?_ ?_ ?_ ?_ ?_ ?_ ?_ ?_ ?_ ?_ ?_ ?_ ?_ ?_ j
  · intro fields t h
    simp [findContinuationToken, contMatches, h]
  · intro fields h1 t h2
    simp [findContinuationToken, contMatches, h1, h2]
  · intro fields h1 h2 ih
    simp [findContinuationToken, contMatches, h1, h2, ih]
  · intro items ih
    simpa [findContinuationToken, contMatches] using ih
  · intro t h1 h2
    cases t with
    | null => rfl
    | bool b => rfl
    | num n => rfl
    | str s => rfl
    | arr items => exact absurd rfl (h2 items)
    | obj fields => exact absurd rfl (h1 fields)
  · intro items ih
    simpa [findTokenChild, contMatchesChild] using ih
  · intro fields t h
    simp [findTokenChild, contMatchesChild, h]
  · intro fields h1 t h2
    simp [findTokenChild, contMatchesChild, h1, h2]
  · intro fields h1 h2 ih
    simp [findTokenChild, contMatchesChild, h1, h2, ih]
  · intro t h1 h2
    cases t with
    | null => rfl
    | bool b => rfl
    | num n => rfl
    | str s => rfl
    | arr items => exact absurd rfl (h1 items)
    | obj fields => exact absurd rfl (h2 fields)
  · rfl
  · intro v rest t h ih
    simp_all [findTokenVals, contMatchesVals, List.head?_append]
  · intro v rest h ih ih2
    simp_all [findTokenVals, contMatchesVals, List.head?_append]
  · rfl
  · intro v rest t h ih
    simp_all [findTokenItems, contMatchesItems, List.head?_append]
  · intro v rest h ih ih2
    simp_all [findTokenItems, contMatchesItems, List.head?_append]
  · rfl
  · intro k v rest t h ih
    simp_all [findTokenFields, contMatchesFields, List.head?_append]
  · intro k v rest h ih ih2
    simp_all [findTokenFields, contMatchesFields, List.head?_append]

/-- The `videoId` check of `extractVideoIds`: the object has a `videoId`
property that is a string of length exactly 11 (JavaScript string length and
Lean codepoint length agree on these ASCII identifiers). -/
def vidOf (fields : List (String × Json)) : Option String :=
  match lookupField fields "videoId" with
  | some (.str s) => if s.length = 11 then some s else none
  | _ => none

/-- Models `if (!videoIds.includes(id)) videoIds.push(id)` guarded by the `videoId`
shape check, at one object node. -/
def pushVid (fields : List (String × Json)) (acc : List String) : List String :=
  match vidOf fields with
  | some s => if acc.contains s then acc else acc ++ [s]
  | none => acc

mutual

/-- Models `extractVideoIds(obj)` from `fetchChannelVideoIds` in `server/index.js`,
state-passing form: `acc` is the shared `videoIds` accumulator.  An object
node first pushes its own `videoId` (unconditionally of the cap — the source
checks the cap only before descending into a child), then walks
`Object.values`. -/
def extractStep (max : Nat) : Json → List String → List String
  | .obj fields, acc => extractFields max fields (pushVid fields acc)
  | .arr items, acc => extractVals max items acc
  | _, acc => acc

/-- The `for (const val of Object.values(obj))` loop, object receiver: the
cap `videoIds.length >= maxVideos` is checked before each value. -/
def extractFields (max : Nat) : List (String × Json) → List String → List String
  | [], acc => acc
  | (_, v) :: rest, acc =>
    if max ≤ acc.length then acc
    else extractFields max rest (extractChild max v acc)

/-- The same loop when the receiver is an array (its `Object.values` are its
elements), still cap-checked per element. -/
def extractVals (max : Nat) : List Json → List String → List String
  | [], acc => acc
  | v :: rest, acc =>
    if max ≤ acc.length then acc
    else extractVals max rest (extractChild max v acc)

/-- One loop value: `Array.isArray(val)` runs `val.forEach(extractVideoIds)`
(no cap check between items), a non-null object recurses (body inlined as in
`findTokenChild`; `extractChild_obj` proves the inlining exact), scalars and
`null` contribute nothing. -/
def extractChild (max : Nat) : Json → List String → List String
  | .arr items, acc => extractForEach max items acc
  | .obj fields, acc => extractFields max fields (pushVid fields acc)
  | _, acc => acc

/-- Models `val.forEach(extractVideoIds)`: every item is processed, with no cap
check between items. -/
def extractForEach (max : Nat) : List Json → List String → List String
  | [], acc => acc
  | i :: rest, acc => extractForEach max rest (extractStep max i acc)

end

theorem extractChild_obj (max : Nat) (fields : List (String × Json))
    (acc : List String) :
    extractChild max (.obj fields) acc = extractStep max (.obj fields) acc := rfl

example :
    extractStep 10 (.obj [("videoId", .str "ABCDEFGHIJK")]) []
      = ["ABCDEFGHIJK"] := rfl

example : extractStep 10 (.obj [("videoId", .str "SHORT")]) [] = ([] : List String) := rfl

theorem pushVid_nodup (fields : List (String × Json)) (acc : List String)
    (h : acc.Nodup) : (pushVid fields acc).Nodup := by
  unfold pushVid
  cases hv : vidOf fields with
  | none => exact h
  | some s =>
    by_cases hc : s ∈ acc
    · simpa [hc] using h
    · simp [hc, List.nodup_append, h]

/-- Joint no-duplicates invariant of the extractor family, by strong
induction on the document size: every function maps a duplicate-free
accumulator to a duplicate-free accumulator (the only write is the
membership-guarded push of `pushVid`). -/
theorem extract_nodup_all (max n : Nat) :
    (∀ j acc, sizeOf j ≤ n → acc.Nodup → (extractStep max j acc).Nodup) ∧
    (∀ fs acc, sizeOf fs ≤ n → acc.Nodup → (extractFields max fs acc).Nodup) ∧
    (∀ vs acc, sizeOf vs ≤ n → acc.Nodup → (extractVals max vs acc).Nodup) ∧
    (∀ v acc, sizeOf v ≤ n → acc.Nodup → (extractChild max v acc).Nodup) ∧
    (∀ its acc, sizeOf its ≤ n → acc.Nodup → (extractForEach max its acc).Nodup) := by
  induction n using Nat.strong_induction_on with
  | _ n ih =>
    refine ⟨?_, ?_, ?_, ?_, ?_⟩
    · intro j acc hsz hacc
      cases j with
      | obj fields =>
        have hlt : sizeOf fields < n := by simp at hsz; omega
        simp only [extractStep]
        exact (ih _ hlt).2.1 fields _ le_rfl (pushVid_nodup fields acc hacc)
      | arr items =>
        have hlt : sizeOf items < n := by simp at hsz; omega
        simp only [extractStep]
        exact (ih _ hlt).2.2.1 items _ le_rfl hacc
      | null => simpa [extractStep] using hacc
      | bool b => simpa [extractStep] using hacc
      | num m => simpa [extractStep] using hacc
      | str s => simpa [extractStep] using hacc
    · intro fs acc hsz hacc
      match fs with
      | [] => simpa [extractFields] using hacc
      | (k, v) :: rest =>
        have hv : sizeOf v < n := by simp at hsz; omega
        have hr : sizeOf rest < n := by simp at hsz; omega
        simp only [extractFields]
        by_cases hc : max ≤ acc.length
        · simpa [hc] using hacc
        · simp only [hc, if_false]
          exact (ih _ hr).2.1 rest _ le_rfl
            ((ih _ hv).2.2.2.1 v acc le_rfl hacc)
    · intro vs acc hsz hacc
      match vs with
      | [] => simpa [extractVals] using hacc
      | v :: rest =>
        have hv : sizeOf v < n := by simp at hsz; omega
        have hr : sizeOf rest < n := by simp at hsz; omega
        simp only [extractVals]
        by_cases hc : max ≤ acc.length
        · simpa [hc] using hacc
        · simp only [hc, if_false]
          exact (ih _ hr).2.2.1 rest _ le_rfl
            ((ih _ hv).2.2.2.1 v acc le_rfl hacc)
    · intro v acc hsz hacc
      cases v with
      | arr items =>
        have hlt : sizeOf items < n := by simp at hsz; omega
        simp only [extractChild]
        exact (ih _ hlt).2.2.2.2 items _ le_rfl hacc
      | obj fields =>
        have hlt : sizeOf fields < n := by simp at hsz; omega
        simp only [extractChild]
        exact (ih _ hlt).2.1 fields _ le_rfl (pushVid_nodup fields acc hacc)
      | null => simpa [extractChild] using hacc
      | bool b => simpa [extractChild] using hacc
      | num m => simpa [extractChild] using hacc
      | str s => simpa [extractChild] using hacc
    · intro its acc hsz hacc
      match its with
      | [] => simpa [extractForEach] using hacc
      | i :: rest =>
        have hi : sizeOf i < n := by simp at hsz; omega
        have hr : sizeOf rest < n := by simp at hsz; omega
        simp only [extractForEach]
        exact (ih _ hr).2.2.2.2 rest _ le_rfl
          ((ih _ hi).1 i acc le_rfl hacc)

/-- Invariant: `extractVideoIds` preserves freedom from duplicates. -/
theorem extractStep_nodup (max : Nat) (j : Json) (acc : List String)
    (hacc : acc.Nodup) : (extractStep max j acc).Nodup :=
  (extract_nodup_all max (sizeOf j)).1 j acc le_rfl hacc

/-- A JavaScript number that may be `NaN` (the value `parseInt` yields on a
digit-free string); the pipeline stores such a value in `likeCount` /
`commentCount` without further checks. -/
inductive JsNum where
  | int (n : Int)
  | nan
deriving Repr, DecidableEq

/-- Decimal digit run to a natural number. -/
def digitsToNat (cs : List Char) : Nat :=
  cs.foldl (fun a c => a * 10 + (c.toNat - '0'.toNat)) 0

/-- Models `parseInt` after optional sign: longest leading decimal-digit run, `NaN`
when there is none. -/
def jsParseIntCore (cs : List Char) (neg : Bool) : JsNum :=
  match cs.takeWhile Char.isDigit with
  | [] => .nan
  | run => .int (if neg then -(digitsToNat run : Int) else (digitsToNat run : Int))

/-- JavaScript `parseInt(s)` restricted to the decimal forms the pipeline
feeds it (digit strings from the player API and comma-stripped label
captures); leading whitespace and an optional sign are handled, the `0x`
radix autodetection never fires on these inputs and is not modelled. -/
def jsParseIntStr (s : String) : JsNum :=
  match s.toList.dropWhile Char.isWhitespace with
  | '-' :: rest => jsParseIntCore rest true
  | '+' :: rest => jsParseIntCore rest false
  | cs => jsParseIntCore cs false

/-- Models `parseInt(x)`, where `x` may be `undefined` (→ `NaN`). -/
def jsParseIntOpt : Option String → JsNum
  | none => .nan
  | some s => jsParseIntStr s

/-- Models `parseInt(x) || 0`: `NaN` is falsy, so it becomes `0` (and a parsed `0`
stays `0`). -/
def jsNumOrZero : JsNum → Int
  | .nan => 0
  | .int n => n

/-- Models `a || d` on an optional string: `undefined` and `""` are falsy. -/
def jsOrStr (o : Option String) (d : String) : String :=
  match o with
  | some s => if s = "" then d else s
  | none => d

/-- One entry of the upstream thumbnail list (`url` may be absent). -/
structure Thumb where
  url : Option String
  width : Nat
  height : Nat
deriving Repr, DecidableEq

/-- The `data.videoDetails` object of the player response; every field the
code reads is optional upstream.  `thumbnails` models the chain
`thumbnail?.thumbnails` (absent at either level ⇒ `none`). -/
structure VideoDetailsJs where
  title : Option String
  shortDescription : Option String
  lengthSeconds : Option String
  viewCount : Option String
  thumbnails : Option (List Thumb)
deriving Repr, DecidableEq

/-- Models `data.microformat?.playerMicroformatRenderer` (the two-level optional
chain collapsed into one). -/
structure MicroformatJs where
  publishDate : Option String
  uploadDate : Option String
deriving Repr, DecidableEq

/-- A parsed player-endpoint response. -/
structure PlayerResponse where
  videoDetails : Option VideoDetailsJs
  microformat : Option MicroformatJs
deriving Repr, DecidableEq

/-- Models `data.videoDetails || {}`. -/
def emptyVideoDetails : VideoDetailsJs := ⟨none, none, none, none, none⟩

/-- Models `data.microformat?.playerMicroformatRenderer || {}`. -/
def emptyMicroformat : MicroformatJs := ⟨none, none⟩

/-- The unit of output (object literal built at the end of
`getVideoDetails`). -/
structure VideoRecord where
  videoId : String
  title : String
  description : String
  duration : Int
  viewCount : Int
  likeCount : Option JsNum
  commentCount : Option JsNum
  releaseDate : String
  videoUrl : String
  thumbnailUrl : String
  transcript : Option String
deriving Repr, DecidableEq

/-- The deterministic fallback thumbnail URL built from the videoId. -/
def thumbFallback (videoId : String) : String :=
  "https://i.ytimg.com/vi/" ++ videoId ++ "/hqdefault.jpg"

/-- Models `vd.thumbnail?.thumbnails?.slice(-1)?.[0]?.url || fallback`: the URL of
the LAST list entry when present and truthy, else the fallback. -/
def thumbUrlOf (videoId : String) (thumbs : Option (List Thumb)) : String :=
  match thumbs with
  | none => thumbFallback videoId
  | some ts =>
    match ts.getLast? with
    | none => thumbFallback videoId
    | some t =>
      match t.url with
      | none => thumbFallback videoId
      | some u => if u = "" then thumbFallback videoId else u

/-- Models `getVideoDetails(videoId)` of `server/index.js`, given the already-parsed
player response and the outcome of the transcript sub-fetch (`tr` is the list
of segment texts, or the thrown error; the inner `try` turns any failure into
`transcript = null`). -/
def getVideoDetails (videoId : String) (pr : PlayerResponse)
    (tr : Except String (List String)) : VideoRecord :=
  let vd := pr.videoDetails.getD emptyVideoDetails
  let md := pr.microformat.getD emptyMicroformat
  { videoId := videoId
    title := jsOrStr vd.title ""
    description := jsOrStr vd.shortDescription ""
    duration := jsNumOrZero (jsParseIntOpt vd.lengthSeconds)
    viewCount := jsNumOrZero (jsParseIntOpt vd.viewCount)
    likeCount := none
    commentCount := none
    releaseDate := jsOrStr md.publishDate (jsOrStr md.uploadDate "")
    videoUrl := "https://www.youtube.com/watch?v=" ++ videoId
    thumbnailUrl := thumbUrlOf videoId vd.thumbnails
    transcript :=
      match tr with
      | .ok segs => some (String.intercalate " " segs)
      | .error _ => none }

/-- A character the JavaScript regex `.` matches (no `s` flag): anything but
the four line terminators. -/
def jsDotChar (c : Char) : Bool :=
  c != '\n' && c != '\r' && c != Char.ofNat 8232 && c != Char.ofNat 8233

/-- Tail of the engagement regexes after the mid literal: the greedy capture
`([\d,]+)` followed by the end literal.  Because the end literals begin with
a character outside `[\d,]`, the greedy run cannot backtrack, so the maximal
run either completes the match or the whole position fails. -/
def capRun (endLit : List Char) (cs : List Char) : Option (List Char) :=
  match cs.takeWhile (fun c => c.isDigit || c == ',') with
  | [] => none
  | run => if endLit.isPrefixOf (cs.drop run.length) then some run else none

/-- The lazy gap `.*?` followed by the mid literal and the capture tail: at
each position first try to complete the match, then grow the gap by one
`.`-matching character (a line terminator fails the whole start position,
exactly as in the JavaScript engine). -/
def lazyMid (midLit endLit : List Char) : List Char → Option (List Char)
  | [] => none
  | c :: rest =>
    match
      (if midLit.isPrefixOf (c :: rest)
       then capRun endLit ((c :: rest).drop midLit.length) else none) with
    | some run => some run
    | none => if jsDotChar c then lazyMid midLit endLit rest else none

/-- Models `html.match(/startLit.*?midLit([\d,]+)endLit/)`, leftmost match, returning
the capture group: the source's two engagement regexes have exactly this
shape. -/
def regexCapture (startLit midLit endLit : List Char) : List Char → Option (List Char)
  | [] => none
  | c :: rest =>
    match
      (if startLit.isPrefixOf (c :: rest)
       then lazyMid midLit endLit ((c :: rest).drop startLit.length) else none) with
    | some run => some run
    | none => regexCapture startLit midLit endLit rest

/-- The capture of `/"defaultIcon".*?"label":"([\d,]+) likes"/` on the watch
page. -/
def likesCapture (html : String) : Option (List Char) :=
  regexCapture "\"defaultIcon\"".toList "\"label\":\"".toList " likes\"".toList html.toList

/-- The capture of `/"commentCount".*?"simpleText":"([\d,]+)"/` on the watch
page. -/
def commentsCapture (html : String) : Option (List Char) :=
  regexCapture "\"commentCount\"".toList "\"simpleText\":\"".toList "\"".toList html.toList

/-- Models `parseInt(capture.replace(/,/g, ''))`. -/
def parseCapture (cap : List Char) : JsNum :=
  jsParseIntStr (String.mk (cap.filter (fun c => c != ',')))

/-- Models `enrichWithEngagementData(videoInfo)` of `server/index.js`.  `pageRes` is
the outcome of fetching the watch page (`Except.error` = fetch or `text()`
threw, swallowed by the surrounding `try`).  On success each count field is
assigned exactly when its regex matches; the record is returned in every
case. -/
def enrichWithEngagementData (pageRes : Except String String)
    (videoInfo : VideoRecord) : VideoRecord :=
  match pageRes with
  | .error _ => videoInfo
  | .ok html =>
    let v1 :=
      match likesCapture html with
      | some cap => { videoInfo with likeCount := some (parseCapture cap) }
      | none => videoInfo
    match commentsCapture html with
    | some cap => { v1 with commentCount := some (parseCapture cap) }
    | none => v1

/-- After the literal part of a channel-id marker: `[^"]+` then the closing
quote — the maximal quote-free run, nonempty, with a quote right after it. -/
def markerRun (cs : List Char) : Option (List Char) :=
  match cs.takeWhile (fun c => c != '"') with
  | [] => none
  | run => if (cs.drop run.length).head? = some '"' then some run else none

/-- Models `html.match(/lit(UC[^"]+)"/)` with `lit` ending in `"UC` — leftmost
occurrence of the literal whose following quote-free run is nonempty; the
returned capture includes the `UC` prefix. -/
def scanMarker (lit : List Char) : List Char → Option String
  | [] => none
  | c :: rest =>
    match (if lit.isPrefixOf (c :: rest)
           then markerRun ((c :: rest).drop lit.length) else none) with
    | some run => some (String.mk ('U' :: 'C' :: run))
    | none => scanMarker lit rest

/-- The body of `resolveChannelId` on the fetched channel document: the
`externalId` marker first, the `channelId` marker as fallback, `null` when
neither matches. -/
def resolveFromHtml (html : String) : Option String :=
  match scanMarker "\"externalId\":\"UC".toList html.toList with
  | some cid => some cid
  | none => scanMarker "\"channelId\":\"UC".toList html.toList

example : resolveFromHtml "x\"externalId\":\"UCabcdef\"y" = some "UCabcdef" := rfl
example : resolveFromHtml "no markers here" = none := rfl
example :
    resolveFromHtml "\"channelId\":\"UCzz\"" = some "UCzz" := rfl
example :
    likesCapture "...\"defaultIcon\"stuff\"label\":\"1,234 likes\"..."
      = some "1,234".toList := rfl

/-- The upstream world of one pipeline run: each network interaction is a
field; `Except.error` models the call (or its body parse) throwing.
Continuation fetches are indexed by round number, per-video calls by loop
index. -/
structure Env where
  resolveHtml : Except String String
  browsePage0 : Except String Json
  browseCont : Nat → Except String Json
  player : Nat → Except String PlayerResponse
  transcriptSegs : Nat → Except String (List String)
  enrichPage : Nat → Except String String

/-- Models `await resolveChannelId(channelUrl)`: a fetch failure propagates as a
thrown error, otherwise the marker scan runs on the document text. -/
def resolveChannelIdRun (env : Env) : Except String (Option String) :=
  match env.resolveHtml with
  | .error e => .error e
  | .ok html => .ok (resolveFromHtml html)

/-- The `while (videoIds.length < maxVideos && attempts < 10)` pagination
loop, fuel = the 10 remaining rounds; `attempt` numbers the continuation
fetches.  A continuation fetch that throws propagates (`Except.error`) — the
loop body has no `try`. -/
def paginate (max : Nat) (cont : Nat → Except String Json) :
    Nat → Nat → Json → List String → Except String (List String)
  | 0, _, _, ids => .ok ids
  | fuel + 1, attempt, data, ids =>
    if max ≤ ids.length then .ok ids
    else
      match findContinuationToken data with
      | none => .ok ids
      | some _ =>
        match cont attempt with
        | .error e => .error e
        | .ok data2 =>
          paginate max cont fuel (attempt + 1) data2 (extractStep max data2 ids)

/-- Models `fetchChannelVideoIds(channelId, maxVideos)`: initial browse request,
extraction, up to 10 continuation rounds, and the final
`videoIds.slice(0, maxVideos)`. -/
def fetchChannelVideoIds (max : Nat) (env : Env) : Except String (List String) :=
  match env.browsePage0 with
  | .error e => .error e
  | .ok data0 =>
    match paginate max env.browseCont 10 0 data0 (extractStep max data0 []) with
    | .error e => .error e
    | .ok ids => .ok (ids.take max)

/-- One element of the terminal `videos` array: either a full record pushed
on success, or the error-shaped object `{videoId, error}` pushed when the
per-video `try` caught. -/
inductive ResultEntry where
  | ok (r : VideoRecord)
  | failed (videoId : String) (errMsg : String)
deriving Repr, DecidableEq

/-- One SSE message `data: {...}` of the stream. -/
inductive Event where
  | status (message : String) (progress : Nat)
  | error (message : String)
  | result (videos : List ResultEntry)
deriving Repr, DecidableEq

/-- The videoId every entry carries (both object shapes have the field). -/
def ResultEntry.vid : ResultEntry → String
  | .ok r => r.videoId
  | .failed v _ => v

/-- The loop body for video index `i`: `getVideoDetails` then enrichment
inside `try`, the catch pushing `{videoId, error}`.  Only the player fetch
can throw (the transcript and enrichment sub-steps swallow their failures),
so the catch fires exactly when `env.player i` is an error. -/
def videoEntry (env : Env) (i : Nat) (vid : String) : ResultEntry :=
  match env.player i with
  | .error e => .failed vid e
  | .ok pr =>
    .ok (enrichWithEngagementData (env.enrichPage i)
      (getVideoDetails vid pr (env.transcriptSegs i)))

/-- The `videos` array accumulated by the per-video loop, starting at loop
index `i`. -/
def buildEntries (env : Env) : Nat → List String → List ResultEntry
  | _, [] => []
  | i, vid :: rest => videoEntry env i vid :: buildEntries env (i + 1) rest

/-- Models `10 + Math.round((i / n) * 85)` as exact natural arithmetic:
`Math.round` is half-up, so the rounded term is `⌊(170i + n) / (2n)⌋`; for
the `i < n ≤ 100` range of the loop the double-precision evaluation agrees
with the exact rational one. -/
def progressPct (i n : Nat) : Nat :=
  10 + (170 * i + n) / (2 * n)

/-- The status events emitted by the per-video loop of an `n`-video run. -/
def perVideoStatuses (n : Nat) : List Event :=
  (List.range n).map (fun i =>
    .status ("Downloading video " ++ toString (i + 1) ++ "/" ++ toString n ++ "...")
      (progressPct i n))

/-- The event stream written by the `/api/youtube/channel` handler once the
SSE headers are set, for effective limit `max`: the translation of lines
384–425 of `server/index.js`, with the outer `catch` turning any propagated
error into a terminal `error` event. -/
def runPipeline (max : Nat) (env : Env) : List Event :=
  Event.status "Resolving channel..." 0 ::
    match resolveChannelIdRun env with
    | .error e => [Event.error e]
    | .ok none => [Event.error "Could not resolve channel ID from URL"]
    | .ok (some _) =>
      Event.status "Fetching video list..." 5 ::
        match fetchChannelVideoIds max env with
        | .error e => [Event.error e]
        | .ok vids =>
          match vids with
          | [] => [Event.error "No videos found for this channel"]
          | _ :: _ =>
            Event.status
                ("Found " ++ toString vids.length ++ " videos. Downloading metadata...") 10 ::
              (perVideoStatuses vids.length
                ++ [Event.status "Done!" 100, Event.result (buildEntries env 0 vids)])

/-- Models `Math.min(Math.max(1, parseInt(maxVideos) || 10), 100)` with the
destructuring default `maxVideos = 10`; an integer-valued `maxVideos` is its
own `parseInt`, and `0` is falsy so `parseInt(0) || 10` is `10`. -/
def effectiveMax (maxVideos : Option Int) : Int :=
  let p : Int :=
    match maxVideos with
    | none => 10
    | some n => if n = 0 then 10 else n
  min (max 1 p) 100

/-- The handler's response: a 400 JSON error before the stream is opened, or
the SSE event stream. -/
inductive HandlerResult where
  | badRequest (msg : String)
  | stream (events : List Event)
deriving Repr, DecidableEq

/-- Models `app.post('/api/youtube/channel')`: missing (or empty, both falsy)
`channelUrl` is rejected with status 400 before any pipeline work; otherwise
the stream is opened and the pipeline runs with the clamped limit. -/
def channelHandler (channelUrl : Option String) (maxVideos : Option Int)
    (env : Env) : HandlerResult :=
  match channelUrl with
  | none => .badRequest "channelUrl required"
  | some u =>
    if u = "" then .badRequest "channelUrl required"
    else .stream (runPipeline (effectiveMax maxVideos).toNat env)

/-- Whether an event is a (non-terminal) status event. -/
def Event.isStatus : Event → Bool
  | .status _ _ => true
  | _ => false

/-- Whether an event terminates the run (`result` or `error`). -/
def Event.isTerminal : Event → Bool
  | .status _ _ => false
  | _ => true

/-- The `progress` values carried by the status events of a stream, in
emission order. -/
def statusProgresses : List Event → List Nat
  | [] => []
  | .status _ p :: rest => p :: statusProgresses rest
  | .error _ :: rest => statusProgresses rest
  | .result _ :: rest => statusProgresses rest

theorem statusProgresses_append (l l' : List Event) :
    statusProgresses (l ++ l') = statusProgresses l ++ statusProgresses l' := by
  induction l with
  | nil => rfl
  | cons e rest ih => cases e <;> simp [statusProgresses, ih]

theorem statusProgresses_map_status {α : Type} (l : List α) (f : α → String)
    (g : α → Nat) :
    statusProgresses (l.map (fun a => .status (f a) (g a))) = l.map g := by
  induction l with
  | nil => rfl
  | cons a rest ih => simp [statusProgresses, ih]

theorem statusProgresses_perVideo (n : Nat) :
    statusProgresses (perVideoStatuses n)
      = (List.range n).map (fun i => progressPct i n) :=
  statusProgresses_map_status _ _ _

theorem progressPct_ge (i n : Nat) : 10 ≤ progressPct i n := by
  simp [progressPct]

theorem progressPct_mono (i j n : Nat) (h : i ≤ j) :
    progressPct i n ≤ progressPct j n := by
  unfold progressPct
  have : 170 * i + n ≤ 170 * j + n := by omega
  exact Nat.add_le_add_left (Nat.div_le_div_right this) 10

/-- The per-video progress value stays at or below 95. -/
theorem progressPct_le_95 (i n : Nat) (h : i < n) : progressPct i n ≤ 95 := by
  unfold progressPct
  have hlt : 170 * i + n < 86 * (2 * n) := by omega
  have := Nat.div_lt_of_lt_mul (by omega : 170 * i + n < 2 * n * 86)
  omega

theorem mem_perVideoStatuses_isStatus (n : Nat) (e : Event)
    (h : e ∈ perVideoStatuses n) : e.isStatus = true := by
  unfold perVideoStatuses at h
  obtain ⟨i, _, rfl⟩ := List.mem_map.mp h
  rfl

theorem buildEntries_length (env : Env) (i : Nat) (vids : List String) :
    (buildEntries env i vids).length = vids.length := by
  induction vids generalizing i with
  | nil => rfl
  | cons v rest ih => simp [buildEntries, ih]

/-- Entry `j` of the result array is the loop body applied to VideoId `j`. -/
theorem buildEntries_getElem? (env : Env) (i j : Nat) (vids : List String) :
    (buildEntries env i vids)[j]? = (vids[j]?).map (fun vid => videoEntry env (i + j) vid) := by
  induction vids generalizing i j with
  | nil => simp [buildEntries]
  | cons v rest ih =>
    cases j with
    | zero => simp [buildEntries]
    | succ j' =>
      simp only [buildEntries, List.getElem?_cons_succ, ih]
      have : i + (j' + 1) = i + 1 + j' := by omega
      rw [this]

/-- Every stream the pipeline writes is some status events followed by a
single terminal event. -/
theorem runPipeline_shape (max : Nat) (env : Env) :
    ∃ pre t, runPipeline max env = pre ++ [t] ∧
      (∀ e ∈ pre, e.isStatus = true) ∧ t.isTerminal = true := by
  unfold runPipeline
  cases hres : resolveChannelIdRun env with
  | error e =>
    refine ⟨[.status "Resolving channel..." 0], .error e, by simp, ?_, rfl⟩
    intro ev hev
    simp at hev
    subst hev
    rfl
  | ok o =>
    cases o with
    | none =>
      refine ⟨[.status "Resolving channel..." 0],
        .error "Could not resolve channel ID from URL", by simp, ?_, rfl⟩
      intro ev hev
      simp at hev
      subst hev
      rfl
    | some cid =>
      cases hfetch : fetchChannelVideoIds max env with
      | error e =>
        refine ⟨[.status "Resolving channel..." 0, .status "Fetching video list..." 5],
          .error e, by simp, ?_, rfl⟩
        intro ev hev
        simp at hev
        rcases hev with rfl | rfl
        · rfl
        · rfl
      | ok vids =>
        cases vids with
        | nil =>
          refine ⟨[.status "Resolving channel..." 0, .status "Fetching video list..." 5],
            .error "No videos found for this channel", by simp, ?_, rfl⟩
          intro ev hev
          simp at hev
          rcases hev with rfl | rfl
          · rfl
          · rfl
        | cons v rest =>
          refine ⟨.status "Resolving channel..." 0 :: .status "Fetching video list..." 5 ::
            .status ("Found " ++ toString (v :: rest).length
                ++ " videos. Downloading metadata...") 10 ::
            (perVideoStatuses (v :: rest).length ++ [.status "Done!" 100]),
            .result (buildEntries env 0 (v :: rest)), by simp, ?_, rfl⟩
          intro ev hev
          simp only [List.mem_cons, List.mem_append, List.mem_singleton,
            List.not_mem_nil, or_false] at hev
          rcases hev with rfl | rfl | rfl | h | rfl
          · rfl
          · rfl
          · rfl
          · exact mem_perVideoStatuses_isStatus _ _ h
          · rfl

/-- C2: once the stream is opened, the run emits some status events followed
by exactly one terminal event (`result` or `error`) — never both, never
neither; in particular a failed channel-id resolution, and an enumeration
that returns zero videos, each end the stream with a single `error` event
and no `result`. -/
theorem channel_single_terminal (url : Option String) (mv : Option Int)
    (env : Env) (evs : List Event)
    (h : channelHandler url mv env = .stream evs) :
    (∃ pre t, evs = pre ++ [t] ∧ (∀ e ∈ pre, e.isStatus = true) ∧
      t.isTerminal = true) ∧
    (resolveChannelIdRun env = .ok none →
      evs = [.status "Resolving channel..." 0,
             .error "Could not resolve channel ID from URL"]) ∧
    (∀ cid, resolveChannelIdRun env = .ok (some cid) →
      fetchChannelVideoIds (effectiveMax mv).toNat env = .ok [] →
      evs = [.status "Resolving channel..." 0, .status "Fetching video list..." 5,
             .error "No videos found for this channel"]) := by
  have hevs : evs = runPipeline (effectiveMax mv).toNat env := by
    cases url with
    | none => simp [channelHandler] at h
    | some u =>
      by_cases hu : u = ""
      · simp [channelHandler, hu] at h
      · simpa [channelHandler, hu] using h.symm
  subst hevs
  refine ⟨runPipeline_shape _ env, ?_, ?_⟩
  · intro hres
    simp [runPipeline, hres]
  · intro cid hres hfetch
    simp [runPipeline, hres, hfetch]

theorem sorted_success_progress (n : Nat) :
    List.Sorted (· ≤ ·)
      (0 :: 5 :: 10 :: ((List.range n).map (fun i => progressPct i n) ++ [100])) := by
  have hmap : List.Sorted (· ≤ ·) ((List.range n).map (fun i => progressPct i n)) := by
    rw [List.Sorted, List.pairwise_map]
    exact (List.pairwise_lt_range n).imp (fun hab => progressPct_mono _ _ n (Nat.le_of_lt hab))
  have hmem10 : ∀ b ∈ (List.range n).map (fun i => progressPct i n) ++ [100], 10 ≤ b := by
    intro b hb
    rcases List.mem_append.mp hb with hb | hb
    · obtain ⟨i, _, rfl⟩ := List.mem_map.mp hb
      exact progressPct_ge i n
    · simp at hb
      omega
  refine List.sorted_cons.mpr ⟨?_, List.sorted_cons.mpr ⟨?_, List.sorted_cons.mpr ⟨?_, ?_⟩⟩⟩
  · intro b hb
    exact Nat.zero_le b
  · intro b hb
    rcases List.mem_cons.mp hb with rfl | hb
    · omega
    · have := hmem10 b hb
      omega
  · exact hmem10
  · refine List.pairwise_append.mpr ⟨hmap, List.pairwise_singleton _ _, ?_⟩
    intro x hx y hy
    obtain ⟨i, hi, rfl⟩ := List.mem_map.mp hx
    simp at hy
    subst hy
    have := progressPct_le_95 i n (List.mem_range.mp hi)
    omega

/-- C4: the progress values carried by status events are monotonically
non-decreasing in emission order on every run (0 at start, 5 when listing
begins, 10 when the list is known, per-video values between 10 and 95, 100
at completion), and on a successful run the final two events are the
`progress:100` status followed by the `result` event carrying exactly one
entry per enumerated VideoId. -/
theorem progress_monotone_final (max : Nat) (env : Env) :
    List.Sorted (· ≤ ·) (statusProgresses (runPipeline max env)) ∧
    (∀ i n, i < n → 10 ≤ progressPct i n ∧ progressPct i n ≤ 95) ∧
    (∀ vids, fetchChannelVideoIds max env = .ok vids → vids ≠ [] →
      ∀ cid, resolveChannelIdRun env = .ok (some cid) →
      runPipeline max env
        = (Event.status "Resolving channel..." 0 ::
           Event.status "Fetching video list..." 5 ::
           Event.status
             ("Found " ++ toString vids.length ++ " videos. Downloading metadata...") 10 ::
           perVideoStatuses vids.length)
          ++ [Event.status "Done!" 100, Event.result (buildEntries env 0 vids)] ∧
      (buildEntries env 0 vids).length = vids.length) := by
  refine ⟨?_, ?_, ?_⟩
  · cases hres : resolveChannelIdRun env with
    | error e => simp [runPipeline, hres, statusProgresses]
    | ok o =>
      cases o with
      | none => simp [runPipeline, hres, statusProgresses]
      | some cid =>
        cases hfetch : fetchChannelVideoIds max env with
        | error e =>
          simp [runPipeline, hres, hfetch, statusProgresses]
        | ok vids =>
          cases vids with
          | nil => simp [runPipeline, hres, hfetch, statusProgresses]
          | cons v rest =>
            have := sorted_success_progress (v :: rest).length
            simpa [runPipeline, hres, hfetch, statusProgresses,
              statusProgresses_append, statusProgresses_perVideo] using this
  · intro i n h
    exact ⟨progressPct_ge i n, progressPct_le_95 i n h⟩
  · intro vids hfetch hne cid hres
    cases vids with
    | nil => exact absurd rfl hne
    | cons v rest =>
      refine ⟨?_, buildEntries_length env 0 (v :: rest)⟩
      simp [runPipeline, hres, hfetch]

/-- The enricher touches nothing but the two count fields. -/
theorem enrich_frame (pageRes : Except String String) (v : VideoRecord) :
    (enrichWithEngagementData pageRes v).videoId = v.videoId ∧
    (enrichWithEngagementData pageRes v).title = v.title ∧
    (enrichWithEngagementData pageRes v).description = v.description ∧
    (enrichWithEngagementData pageRes v).duration = v.duration ∧
    (enrichWithEngagementData pageRes v).viewCount = v.viewCount ∧
    (enrichWithEngagementData pageRes v).releaseDate = v.releaseDate ∧
    (enrichWithEngagementData pageRes v).videoUrl = v.videoUrl ∧
    (enrichWithEngagementData pageRes v).thumbnailUrl = v.thumbnailUrl ∧
    (enrichWithEngagementData pageRes v).transcript = v.transcript := by
  cases pageRes with
  | error e => simp [enrichWithEngagementData]
  | ok html =>
    cases hl : likesCapture html <;> cases hc : commentsCapture html <;>
      simp [enrichWithEngagementData, hl, hc]

/-- C10: the engagement enricher is total (it never throws: every failure
path is a value), returns the same record it was given up to the two count
fields, and overwrites `likeCount` (resp. `commentCount`) exactly when its
textual marker matches in the fetched page — on a fetch error or a failed
match the prior value is kept. -/
theorem enrich_frame_and_rule (pageRes : Except String String) (v : VideoRecord) :
    (enrichWithEngagementData pageRes v).videoId = v.videoId ∧
    (enrichWithEngagementData pageRes v).title = v.title ∧
    (enrichWithEngagementData pageRes v).description = v.description ∧
    (enrichWithEngagementData pageRes v).duration = v.duration ∧
    (enrichWithEngagementData pageRes v).viewCount = v.viewCount ∧
    (enrichWithEngagementData pageRes v).releaseDate = v.releaseDate ∧
    (enrichWithEngagementData pageRes v).videoUrl = v.videoUrl ∧
    (enrichWithEngagementData pageRes v).thumbnailUrl = v.thumbnailUrl ∧
    (enrichWithEngagementData pageRes v).transcript = v.transcript ∧
    (enrichWithEngagementData pageRes v).likeCount
      = (match pageRes with
         | .error _ => v.likeCount
         | .ok html =>
           match likesCapture html with
           | some cap => some (parseCapture cap)
           | none => v.likeCount) ∧
    (enrichWithEngagementData pageRes v).commentCount
      = (match pageRes with
         | .error _ => v.commentCount
         | .ok html =>
           match commentsCapture html with
           | some cap => some (parseCapture cap)
           | none => v.commentCount) := by
  obtain ⟨h1, h2, h3, h4, h5, h6, h7, h8, h9⟩ := enrich_frame pageRes v
  refine ⟨h1, h2, h3, h4, h5, h6, h7, h8, h9, ?_, ?_⟩ <;>
    cases pageRes with
    | error e => rfl
    | ok html =>
      cases hl : likesCapture html <;> cases hc : commentsCapture html <;>
        simp [enrichWithEngagementData, hl, hc]

/-- C1: when the run reaches the per-video stage, a metadata-fetch failure at
index `i` does not abort the run: the terminal `result` event still carries
one entry per VideoId in order; entry `i` is the error-shaped
`{videoId, error}` object (no numeric placeholder fields — the `failed`
constructor carries nothing else), and every index whose player call
succeeded holds a fully populated record for its VideoId. -/
theorem per_video_isolation (max : Nat) (env : Env) (vids : List String)
    (cid : String) (i : Nat) (e vid : String)
    (hres : resolveChannelIdRun env = .ok (some cid))
    (hfetch : fetchChannelVideoIds max env = .ok vids)
    (hne : vids ≠ [])
    (hvid : vids[i]? = some vid)
    (hplayer : env.player i = .error e) :
    (∃ pre, runPipeline max env = pre ++ [Event.result (buildEntries env 0 vids)]) ∧
    (buildEntries env 0 vids).length = vids.length ∧
    (buildEntries env 0 vids)[i]? = some (.failed vid e) ∧
    (∀ j vid2 pr, vids[j]? = some vid2 → env.player j = .ok pr →
      (buildEntries env 0 vids)[j]?
        = some (.ok (enrichWithEngagementData (env.enrichPage j)
            (getVideoDetails vid2 pr (env.transcriptSegs j)))) ∧
      (enrichWithEngagementData (env.enrichPage j)
        (getVideoDetails vid2 pr (env.transcriptSegs j))).videoId = vid2) := by
  refine ⟨?_, buildEntries_length env 0 vids, ?_, ?_⟩
  · cases vids with
    | nil => exact absurd rfl hne
    | cons v rest =>
      refine ⟨Event.status "Resolving channel..." 0 ::
        Event.status "Fetching video list..." 5 ::
        Event.status ("Found " ++ toString (v :: rest).length
            ++ " videos. Downloading metadata...") 10 ::
        (perVideoStatuses (v :: rest).length ++ [Event.status "Done!" 100]), ?_⟩
      simp [runPipeline, hres, hfetch]
  · rw [buildEntries_getElem? env 0 i vids, hvid]
    simp [videoEntry, hplayer]
  · intro j vid2 pr hvid2 hpl
    constructor
    · rw [buildEntries_getElem? env 0 j vids, hvid2]
      simp [videoEntry, hpl]
    · exact (enrich_frame (env.enrichPage j) _).1

theorem paginate_nodup (max : Nat) (cont : Nat → Except String Json)
    (fuel : Nat) :
    ∀ attempt data ids, ids.Nodup → ∀ out,
      paginate max cont fuel attempt data ids = .ok out → out.Nodup := by
  induction fuel with
  | zero =>
    intro attempt data ids hids out h
    simp [paginate] at h
    subst h
    exact hids
  | succ fuel ih =>
    intro attempt data ids hids out h
    unfold paginate at h
    by_cases hlen : max ≤ ids.length
    · simp [hlen] at h
      subst h
      exact hids
    · simp only [hlen, if_false] at h
      cases htok : findContinuationToken data with
      | none =>
        rw [htok] at h
        simp at h
        subst h
        exact hids
      | some t =>
        rw [htok] at h
        cases hc : cont attempt with
        | error e =>
          rw [hc] at h
          cases h
        | ok data2 =>
          rw [hc] at h
          exact ih (attempt + 1) data2 _ (extractStep_nodup max data2 ids hids) out h

theorem paginate_agree (max : Nat) (cont1 cont2 : Nat → Except String Json)
    (fuel : Nat) :
    ∀ attempt data ids,
      (∀ k, attempt ≤ k → k < attempt + fuel → cont1 k = cont2 k) →
      paginate max cont1 fuel attempt data ids
        = paginate max cont2 fuel attempt data ids := by
  induction fuel with
  | zero => intro attempt data ids _; rfl
  | succ fuel ih =>
    intro attempt data ids h
    unfold paginate
    by_cases hlen : max ≤ ids.length
    · simp [hlen]
    · simp only [hlen, if_false]
      cases findContinuationToken data with
      | none => rfl
      | some t =>
        have hceq : cont1 attempt = cont2 attempt := h attempt le_rfl (by omega)
        rw [hceq]
        cases cont2 attempt with
        | error e => rfl
        | ok data2 =>
          exact ih (attempt + 1) data2 _ (fun k hk1 hk2 => h k (by omega) (by omega))

theorem paginate_stop (max : Nat) (cont : Nat → Except String Json)
    (fuel attempt : Nat) (data : Json) (ids : List String)
    (htok : findContinuationToken data = none) :
    paginate max cont fuel attempt data ids = .ok ids := by
  cases fuel with
  | zero => rfl
  | succ fuel =>
    unfold paginate
    by_cases hlen : max ≤ ids.length
    · simp [hlen]
    · simp [hlen, htok]

/-- C5: enumeration returns at most `maxVideos` identifiers with no
duplicates (discovery order is the construction order of the accumulator);
a first page with no identifiers and no continuation token yields the empty
sequence as a normal result, not an error; and the run consults at most 10
continuation responses — environments agreeing on the first page and on
continuation rounds 0–9 are indistinguishable. -/
theorem enumeration_bounds (max : Nat) (env : Env)
    (_hmax : 1 ≤ max ∧ max ≤ 100) :
    (∀ ids, fetchChannelVideoIds max env = .ok ids →
      ids.length ≤ max ∧ ids.Nodup) ∧
    (∀ page0, env.browsePage0 = .ok page0 → extractStep max page0 [] = [] →
      findContinuationToken page0 = none → fetchChannelVideoIds max env = .ok []) ∧
    (∀ env2 : Env, env2.browsePage0 = env.browsePage0 →
      (∀ k, k < 10 → env2.browseCont k = env.browseCont k) →
      fetchChannelVideoIds max env2 = fetchChannelVideoIds max env) := by
  refine ⟨?_, ?_, ?_⟩
  · intro ids h
    unfold fetchChannelVideoIds at h
    cases hb : env.browsePage0 with
    | error e => simp [hb] at h
    | ok data0 =>
      simp only [hb] at h
      cases hp : paginate max env.browseCont 10 0 data0 (extractStep max data0 []) with
      | error e => simp [hp] at h
      | ok mids =>
        simp only [hp, Except.ok.injEq] at h
        subst h
        refine ⟨List.length_take_le max mids, ?_⟩
        exact List.Nodup.sublist (List.take_sublist _ _)
          (paginate_nodup max env.browseCont 10 0 data0 (extractStep max data0 [])
            (extractStep_nodup max data0 [] List.nodup_nil) mids hp)
  · intro page0 hb hext htok
    unfold fetchChannelVideoIds
    simp only [hb]
    rw [hext, paginate_stop max env.browseCont 10 0 page0 [] htok]
    simp
  · intro env2 h0 hc
    unfold fetchChannelVideoIds
    rw [h0]
    cases hb : env.browsePage0 with
    | error e => simp [hb]
    | ok data0 =>
      simp only [hb]
      rw [paginate_agree max env2.browseCont env.browseCont 10 0 data0
        (extractStep max data0 []) (fun k _ hk => hc k (by omega))]

/-- C3 (amended): a failed browse-continuation fetch does not yield a partial
list — the loop body has no try/catch, so the thrown error propagates out of
`fetchChannelVideoIds`, the identifiers collected so far are discarded, and
the handler's outer catch ends the stream with a single terminal `error`
event carrying that message. -/
theorem pagination_failure_aborts (max : Nat) (env : Env) (cid e : String)
    (hres : resolveChannelIdRun env = .ok (some cid))
    (hfetch : fetchChannelVideoIds max env = .error e) :
    (∀ fuel attempt data ids t e2, ids.length < max →
      findContinuationToken data = some t →
      env.browseCont attempt = .error e2 →
      paginate max env.browseCont (fuel + 1) attempt data ids = .error e2) ∧
    runPipeline max env
      = [.status "Resolving channel..." 0, .status "Fetching video list..." 5,
         .error e] := by
  constructor
  · intro fuel attempt data ids t e2 hlen htok hc
    unfold paginate
    have hnle : ¬ (max ≤ ids.length) := by omega
    simp [hnle, htok, hc]
  · simp [runPipeline, hres, hfetch]

theorem markerRun_ne_nil (cs run : List Char) (h : markerRun cs = some run) :
    run ≠ [] := by
  unfold markerRun at h
  cases ht : cs.takeWhile (fun c => c != '"') with
  | nil => simp [ht] at h
  | cons a as =>
    simp only [ht] at h
    by_cases hq : (cs.drop (a :: as).length).head? = some '"'
    · rw [if_pos hq] at h
      cases h
      simp
    · rw [if_neg hq] at h
      cases h

theorem scanMarker_shape (lit : List Char) :
    ∀ cs s, scanMarker lit cs = some s →
      ∃ run, run ≠ [] ∧ s = String.mk ('U' :: 'C' :: run) := by
  intro cs
  induction cs with
  | nil => intro s h; simp [scanMarker] at h
  | cons c rest ih =>
    intro s h
    unfold scanMarker at h
    cases hp : lit.isPrefixOf (c :: rest) with
    | false =>
      simp only [hp, Bool.false_eq_true, if_false] at h
      exact ih s h
    | true =>
      simp only [hp, if_true] at h
      cases hm : markerRun ((c :: rest).drop lit.length) with
      | none =>
        simp only [hm] at h
        exact ih s h
      | some run =>
        simp only [hm, Option.some.injEq] at h
        exact ⟨run, markerRun_ne_nil _ run hm, h.symm⟩

/-- C9 (amended): whenever the resolver returns an identifier it begins with
`"UC"` followed by at least one further character (the regexes capture
`UC[^"]+`), so its length is at least 3 — but the fixed 24-character shape of
the claim is NOT enforced by the code. -/
theorem resolver_id_shape (html : String) (cid : String)
    (h : resolveFromHtml html = some cid) :
    (∃ rest, rest ≠ [] ∧ cid.data = 'U' :: 'C' :: rest) ∧ 3 ≤ cid.length := by
  have hshape : ∃ run, run ≠ [] ∧ cid = String.mk ('U' :: 'C' :: run) := by
    unfold resolveFromHtml at h
    cases h1 : scanMarker "\"externalId\":\"UC".toList html.toList with
    | some s =>
      simp only [h1, Option.some.injEq] at h
      obtain ⟨run, hne, hs⟩ := scanMarker_shape _ _ _ h1
      exact ⟨run, hne, h ▸ hs⟩
    | none =>
      simp only [h1] at h
      exact scanMarker_shape _ _ _ h
  obtain ⟨run, hne, rfl⟩ := hshape
  refine ⟨⟨run, hne, rfl⟩, ?_⟩
  have : run.length ≠ 0 := fun hz => hne (List.eq_nil_of_length_eq_zero hz)
  simp [String.length]
  omega

/-- Modelled from the spec: the supplied `maxVideos` integer "clamped to
[1,100]". -/
def specClamp (n : Int) : Int := min (max n 1) 100

/-- C7 (amended): a missing `channelUrl` is rejected as a client error with
no pipeline run; the effective limit equals the supplied integer clamped to
[1,100] for every nonzero integer, while an absent `maxVideos` AND a supplied
`0` (falsy after `parseInt`) both fall back to the default 10. -/
theorem request_validation (env : Env) :
    (∀ mv : Option Int, channelHandler none mv env = .badRequest "channelUrl required") ∧
    (∀ n : Int, n ≠ 0 → effectiveMax (some n) = specClamp n) ∧
    effectiveMax none = 10 ∧ effectiveMax (some 0) = 10 ∧
    (∀ mv u, u ≠ "" → channelHandler (some u) mv env
        = .stream (runPipeline (effectiveMax mv).toNat env)) := by
  refine ⟨fun mv => rfl, ?_, rfl, rfl, ?_⟩
  · intro n hn
    simp only [effectiveMax, specClamp, hn, if_false]
    rw [max_comm]
  · intro mv u hu
    simp [channelHandler, hu]

/-- Modelled from the spec: "picks the highest-resolution entry from the
upstream thumbnail list" — an entry of maximal pixel area (earliest such
entry on ties; the counterexample below has a unique maximum). -/
def specHighestRes : List Thumb → Option Thumb
  | [] => none
  | t :: rest =>
    match specHighestRes rest with
    | none => some t
    | some u => if t.width * t.height < u.width * u.height then some u else some t

/-- C8 (amended): `thumbnailUrl` is the url of the LAST entry of the upstream
thumbnail list when the list is present and non-empty and that url is truthy
(upstream happens to order entries by ascending resolution — the code never
compares resolutions); an absent or empty list yields the deterministic
fallback URL built from the videoId. -/
theorem thumbnail_last_rule (videoId : String) (pr : PlayerResponse)
    (tr : Except String (List String)) :
    (∀ thumbs t u, (pr.videoDetails.getD emptyVideoDetails).thumbnails = some thumbs →
      thumbs.getLast? = some t → t.url = some u → u ≠ "" →
      (getVideoDetails videoId pr tr).thumbnailUrl = u) ∧
    ((pr.videoDetails.getD emptyVideoDetails).thumbnails = none →
      (getVideoDetails videoId pr tr).thumbnailUrl = thumbFallback videoId) ∧
    (∀ thumbs, (pr.videoDetails.getD emptyVideoDetails).thumbnails = some thumbs →
      thumbs.getLast? = none →
      (getVideoDetails videoId pr tr).thumbnailUrl = thumbFallback videoId) := by
  refine ⟨?_, ?_, ?_⟩ <;> intros <;> simp_all [getVideoDetails, thumbUrlOf]

/-- A three-video first page with no continuation token. -/
def page3 : Json :=
  .obj [("contents", .arr
    [.obj [("videoId", .str "AAAAAAAAAAA")],
     .obj [("videoId", .str "BBBBBBBBBBB")],
     .obj [("videoId", .str "CCCCCCCCCCC")]])]

/-- A fully-populated player response used by the concrete runs. -/
def playerHappy : PlayerResponse :=
  { videoDetails := some
      { title := some "A title", shortDescription := some "A description",
        lengthSeconds := some "120", viewCount := some "4567",
        thumbnails := some [{ url := some "https://i.example/1.jpg", width := 120, height := 90 }] }
    microformat := some { publishDate := some "2024-01-02", uploadDate := none } }

/-- A channel document carrying a (short) canonical-id marker. -/
def htmlResolve : String := "\"externalId\":\"UCabc\""

/-- Concrete run: 3 videos, player call 1 throws, the best-effort sub-steps
fail. -/
def envC1 : Env :=
  { resolveHtml := .ok htmlResolve
    browsePage0 := .ok page3
    browseCont := fun _ => .error "unused"
    player := fun i => if i = 1 then .error "boom" else .ok playerHappy
    transcriptSegs := fun _ => .error "transcript unavailable"
    enrichPage := fun _ => .error "page fetch failed" }

/-- Concrete run: 3 videos, every per-video call succeeds. -/
def envHappy : Env :=
  { resolveHtml := .ok htmlResolve
    browsePage0 := .ok page3
    browseCont := fun _ => .error "unused"
    player := fun _ => .ok playerHappy
    transcriptSegs := fun _ => .ok ["hello", "world"]
    enrichPage := fun _ => .error "page fetch failed" }

/-- Concrete run whose channel document contains no id marker. -/
def envNoMarker : Env :=
  { resolveHtml := .ok "<html>no markers</html>"
    browsePage0 := .error "unused"
    browseCont := fun _ => .error "unused"
    player := fun _ => .error "unused"
    transcriptSegs := fun _ => .error "unused"
    enrichPage := fun _ => .error "unused" }

/-- First page with one video and a continuation token. -/
def pageWithToken : Json :=
  .obj [("contents", .arr [.obj [("videoId", .str "AAAAAAAAAAA")]]),
        ("continuations", .obj [("continuationCommand", .obj [("token", .str "TOK")])])]

/-- Concrete run whose continuation fetch throws. -/
def envC3 : Env :=
  { resolveHtml := .ok htmlResolve
    browsePage0 := .ok pageWithToken
    browseCont := fun _ => .error "network down"
    player := fun _ => .error "unused"
    transcriptSegs := fun _ => .error "unused"
    enrichPage := fun _ => .error "unused" }

/-- C3 counterexample: the first page already yielded `["AAAAAAAAAAA"]` and a
continuation token; the continuation fetch throws, and instead of proceeding
with that partial list the enumeration propagates the error and the run ends
with a terminal `error` event — the claim's "continues with the identifiers
collected so far" is false on this input. -/
theorem pagination_failure_counterexample :
    extractStep 10 pageWithToken [] = ["AAAAAAAAAAA"] ∧
    fetchChannelVideoIds 10 envC3 = .error "network down" ∧
    runPipeline 10 envC3
      = [.status "Resolving channel..." 0, .status "Fetching video list..." 5,
         .error "network down"] :=
  ⟨rfl, rfl, rfl⟩

theorem pagination_failure_aborts_witness :
    runPipeline 10 envC3
      = [Event.status "Resolving channel..." 0,
         Event.status "Fetching video list..." 5,
         Event.error "network down"] :=
  (pagination_failure_aborts 10 envC3 "UCabc" "network down" rfl rfl).2

theorem per_video_isolation_witness :
    (buildEntries envC1 0 ["AAAAAAAAAAA", "BBBBBBBBBBB", "CCCCCCCCCCC"]).length = 3 ∧
    (buildEntries envC1 0 ["AAAAAAAAAAA", "BBBBBBBBBBB", "CCCCCCCCCCC"])[1]?
      = some (.failed "BBBBBBBBBBB" "boom") := by
  have h := per_video_isolation 10 envC1
    ["AAAAAAAAAAA", "BBBBBBBBBBB", "CCCCCCCCCCC"] "UCabc" 1 "boom" "BBBBBBBBBBB"
    rfl rfl (by simp) rfl rfl
  exact ⟨h.2.1, h.2.2.1⟩

theorem channel_single_terminal_witness :
    ∃ pre t,
      [Event.status "Resolving channel..." 0,
       Event.error "Could not resolve channel ID from URL"] = pre ++ [t] ∧
      (∀ e ∈ pre, e.isStatus = true) ∧ t.isTerminal = true :=
  (channel_single_terminal (some "https://example.com/@chan") none envNoMarker
    [Event.status "Resolving channel..." 0,
     Event.error "Could not resolve channel ID from URL"] rfl).1

theorem progress_monotone_final_witness :
    runPipeline 10 envHappy
      = (Event.status "Resolving channel..." 0 ::
         Event.status "Fetching video list..." 5 ::
         Event.status ("Found " ++ toString (3 : Nat)
             ++ " videos. Downloading metadata...") 10 ::
         perVideoStatuses 3)
        ++ [Event.status "Done!" 100,
            Event.result
              (buildEntries envHappy 0 ["AAAAAAAAAAA", "BBBBBBBBBBB", "CCCCCCCCCCC"])] ∧
    (buildEntries envHappy 0 ["AAAAAAAAAAA", "BBBBBBBBBBB", "CCCCCCCCCCC"]).length = 3 :=
  (progress_monotone_final 10 envHappy).2.2
    ["AAAAAAAAAAA", "BBBBBBBBBBB", "CCCCCCCCCCC"] rfl (by simp) "UCabc" rfl

theorem enumeration_bounds_witness :
    (["AAAAAAAAAAA", "BBBBBBBBBBB", "CCCCCCCCCCC"] : List String).length ≤ 10 ∧
    (["AAAAAAAAAAA", "BBBBBBBBBBB", "CCCCCCCCCCC"] : List String).Nodup :=
  (enumeration_bounds 10 envC1 (by omega)).1
    ["AAAAAAAAAAA", "BBBBBBBBBBB", "CCCCCCCCCCC"] rfl

/-- C7 counterexample: the run started with `maxVideos = 0` uses limit 10
(`parseInt(0) || 10`), not the claimed clamp result 1. -/
theorem clamp_zero_counterexample :
    effectiveMax (some 0) = 10 ∧ specClamp 0 = 1 ∧
    effectiveMax (some 0) ≠ specClamp 0 :=
  ⟨rfl, rfl, by decide⟩

theorem request_validation_witness :
    effectiveMax (some 37) = specClamp 37 ∧
    channelHandler none (some 37) envNoMarker = .badRequest "channelUrl required" :=
  ⟨(request_validation envNoMarker).2.1 37 (by decide),
   (request_validation envNoMarker).1 (some 37)⟩

/-- Thumbnail list whose highest-resolution entry comes first. -/
def thumbsC8 : List Thumb :=
  [{ url := some "https://a.example/hi.jpg", width := 1280, height := 720 },
   { url := some "https://b.example/lo.jpg", width := 120, height := 90 }]

/-- Player response carrying `thumbsC8`. -/
def playerC8 : PlayerResponse :=
  { videoDetails := some
      { title := some "T", shortDescription := some "D",
        lengthSeconds := some "10", viewCount := some "5",
        thumbnails := some thumbsC8 }
    microformat := none }

/-- C8 counterexample: with the 1280×720 entry listed first and the 120×90
entry last, the code returns the LAST entry's url, not the
highest-resolution entry's url. -/
theorem thumbnail_counterexample :
    (getVideoDetails "ABCDEFGHIJK" playerC8 (.error "x")).thumbnailUrl
      = "https://b.example/lo.jpg" ∧
    (specHighestRes thumbsC8).map Thumb.url = some (some "https://a.example/hi.jpg") ∧
    ("https://b.example/lo.jpg" : String) ≠ "https://a.example/hi.jpg" :=
  ⟨rfl, rfl, by decide⟩

theorem thumbnail_last_rule_witness :
    (getVideoDetails "ABCDEFGHIJK" playerC8 (.error "x")).thumbnailUrl
      = "https://b.example/lo.jpg" :=
  (thumbnail_last_rule "ABCDEFGHIJK" playerC8 (.error "x")).1 thumbsC8
    { url := some "https://b.example/lo.jpg", width := 120, height := 90 }
    "https://b.example/lo.jpg" rfl rfl rfl (by decide)

/-- C9 counterexample: a document whose marker carries only one character
after `UC` resolves to the 3-character id `"UCx"` — the code enforces no
22-character tail. -/
theorem resolver_length_counterexample :
    resolveFromHtml "\"externalId\":\"UCx\"" = some "UCx" ∧
    ("UCx" : String).length ≠ 24 :=
  ⟨rfl, by decide⟩

theorem resolver_id_shape_witness :
    (∃ rest, rest ≠ [] ∧ ("UCabc" : String).data = 'U' :: 'C' :: rest) ∧
    3 ≤ ("UCabc" : String).length :=
  resolver_id_shape htmlResolve "UCabc" rfl
